import Mathlib

/-!
Shallow embedding of `src/behavior_tree_lite.h` (namespace `behavior_tree_lite`),
a behavior-tree DSL parser and tick engine, together with proofs about the
claims of its specification.

Conventions of the embedding:
* `std::string_view` slices consumed by the recursive-descent parser are
  modelled as `List Char`; the parser result type
  `IResult<T> = std::variant<Res<T>, std::string>` is `Except String (List Char × T)`.
* machine integers: `int` counters are `Int`; the implicit `int → size_t`
  conversion in `Context::tick_child` is made explicit as a reduction
  modulo 2^64.
* `std::unordered_map` is an association list whose lookup returns the first
  match and whose assignment replaces the first match (or appends).
* exceptions thrown at tick time are `Except RErr`; because the C++ code
  mutates the context and the node in place, every tick function returns the
  (possibly mutated) context and node state on the error path as well.
-/

namespace BT

/-- `PortType` from the source: the direction tag of a port. -/
inductive PortType where
  | Input
  | Output
  | InOut
deriving DecidableEq, Repr

/-- `BehaviorResult` from the source. -/
inductive BehaviorResult where
  | Success
  | Fail
  | Running
deriving DecidableEq, Repr

/-- The tick-time exception classes of the source (`undefined_port_error`,
`write_input_port_error`, `write_to_literal_error`, `invalid_count_error`,
`undefined_variable_error`, `undefined_node_error`), plus `outOfFuel`, the
marker the fuel-indexed interpreter returns when its step budget is spent
(the C++ recursion has no such bound; all theorems below either supply
enough fuel or take the relevant tick results as hypotheses). -/
inductive RErr where
  | undefinedPort
  | undefinedVariable
  | writeInputPort
  | writeToLiteral
  | invalidCount
  | undefinedNode (name : String)
  | outOfFuel
deriving DecidableEq, Repr

/-- `BlackboardValue = std::variant<std::pair<std::string, PortType>, std::string>`:
either a variable reference with its direction, or a literal. -/
inductive BlackboardValue where
  | variable (name : String) (ty : PortType)
  | literal (text : String)
deriving DecidableEq, Repr

/-- `Blackboard = std::unordered_map<std::string, std::string>`. -/
def Blackboard := List (String × String)

/-- `BBMap = std::unordered_map<std::string, BlackboardValue>`. -/
def BBMap := List (String × BlackboardValue)

instance : DecidableEq Blackboard := by unfold Blackboard; infer_instance
instance : DecidableEq BBMap := by unfold BBMap; infer_instance

/-- `unordered_map::find` on a blackboard (first matching key). -/
def bbFind (bb : Blackboard) (k : String) : Option String :=
  match bb with
  | [] => none
  | (k2, v) :: rest => if k2 = k then some v else bbFind rest k

/-- `blackboard[k] = v`: replace the first binding of `k`, or insert it. -/
def bbSet (bb : Blackboard) (k v : String) : Blackboard :=
  match bb with
  | [] => [(k, v)]
  | (k2, v2) :: rest => if k2 = k then (k2, v) :: rest else (k2, v2) :: bbSet rest k v

/-- `unordered_map::find` on a port-map table. -/
def bbmapFind (m : BBMap) (k : String) : Option BlackboardValue :=
  match m with
  | [] => none
  | (k2, v) :: rest => if k2 = k then some v else bbmapFind rest k

section Lexer

/-- ASCII whitespace of `isspace` in the "C" locale. -/
def isSpaceC (c : Char) : Bool :=
  c = ' ' ∨ c = '\t' ∨ c = '\n' ∨ c = '\x0b' ∨ c = '\x0c' ∨ c = '\r'

/-- `isalpha` in the "C" locale. -/
def isAlphaC (c : Char) : Bool :=
  ('a' ≤ c ∧ c ≤ 'z') ∨ ('A' ≤ c ∧ c ≤ 'Z')

/-- `isalnum` in the "C" locale. -/
def isAlnumC (c : Char) : Bool :=
  isAlphaC c ∨ ('0' ≤ c ∧ c ≤ '9')

/-- The value component of the infallible `space` skipper: the rest after
consuming leading whitespace (the consumed span itself is never used by the
callers modelled here). -/
def space (i : List Char) : List Char :=
  match i with
  | [] => []
  | c :: rest => if isSpaceC c then space rest else c :: rest

/-- `identifier`: skip space, require a letter or underscore, then take
letters, digits and underscores. -/
def identifier (i : List Char) : Except String (List Char × List Char) :=
  let i1 := space i
  match i1 with
  | [] => Except.error "Expected an identifier"
  | c :: _ =>
    if ¬ isAlphaC c ∧ c ≠ '_' then Except.error "Expected an identifier"
    else
      Except.ok (i1.dropWhile (fun d => isAlnumC d ∨ d = '_'),
                 i1.takeWhile (fun d => isAlnumC d ∨ d = '_'))

/-- The scanning loop of `string_literal`: repeatedly apply `unmatch_char<'"'>`
until it fails (next non-space char is a quote) or the input runs out; returns
the remaining slice at loop exit. The fuel argument is an upper bound on the
iterations; `r.length` always suffices because every step shortens `r`. -/
def stringLitScan : Nat → List Char → List Char
  | 0, r => r
  | n + 1, r =>
    match r with
    | [] => []
    | c :: rest =>
      let r2 := space (c :: rest)
      match r2 with
      | '"' :: _ => c :: rest
      | [] => stringLitScan n []
      | _ :: r3 => stringLitScan n r3

/-- `string_literal`: expect `"` (after space), consume to the next `"`, and
return the inner span. When the literal is unterminated the C++ calls
`substr(1)` on an empty view, which throws `std::out_of_range`; that path is
modelled as a parse error here (no claim exercises it). -/
def string_literal (i : List Char) : Except String (List Char × List Char) :=
  let i1 := space i
  match i1 with
  | '"' :: rest =>
    let r := stringLitScan rest.length rest
    match r with
    | [] => Except.error "unterminated string literal"
    | _ :: r2 => Except.ok (r2, rest.take (rest.length - r.length))
  | _ => Except.error ("Expected token \x27\x22\x27")

end Lexer

/-- One `PortMap` record of the source: direction, literal flag, the node-side
port name, and the blackboard-side value. -/
structure PortMapR where
  ty : PortType
  blackboard_literal : Bool
  node_port : String
  blackboard_value : BlackboardValue
deriving DecidableEq, Repr

/-- `port_map`: `ident ("<-"|"->"|"<->") (string | ident)`. The arrow is
matched by the same if/else chain as the source: two-character `"<-"` first,
then `"->"`, and only then the three-character `"<->"`. -/
def port_map (i : List Char) : Except String (List Char × PortMapR) :=
  match identifier i with
  | Except.error e => Except.error e
  | Except.ok (rest, name) =>
    let r := space rest
    let arrow : Option (PortType × List Char) :=
      if r.take 2 = ['<', '-'] then some (PortType.Input, r.drop 2)
      else if r.take 2 = ['-', '>'] then some (PortType.Output, r.drop 2)
      else if r.take 3 = ['<', '-', '>'] then some (PortType.InOut, r.drop 3)
      else none
    match arrow with
    | none => Except.error "Expected \x22<-\x22, \x22->\x22 or \x22<->\x22"
    | some (ty, next) =>
      match string_literal next with
      | Except.ok (next2, lit) =>
        Except.ok (next2,
          { ty := ty, blackboard_literal := true, node_port := String.mk name,
            blackboard_value := BlackboardValue.literal (String.mk lit) })
      | Except.error _ =>
        match identifier next with
        | Except.error e => Except.error e
        | Except.ok (next2, varname) =>
          Except.ok (next2,
            { ty := ty, blackboard_literal := false, node_port := String.mk name,
              blackboard_value := BlackboardValue.variable (String.mk varname) ty })

/-- `VarDef`: a `var` declaration with an optional `"true"`/`"false"` initializer. -/
structure VarDefP where
  name : String
  init : Option String
deriving DecidableEq, Repr

/-- `TreeDef`: an AST node (`name`, call-site port maps, children, var decls). -/
inductive TreeDefA where
  | mk (name : String) (port_maps : List PortMapR) (children : List TreeDefA)
       (vars : List VarDefP)

/-- Field accessor for `TreeDef::name`. -/
def TreeDefA.name : TreeDefA → String
  | .mk n _ _ _ => n

/-- Field accessor for `TreeDef::port_maps`. -/
def TreeDefA.port_maps : TreeDefA → List PortMapR
  | .mk _ p _ _ => p

/-- Field accessor for `TreeDef::children`. -/
def TreeDefA.children : TreeDefA → List TreeDefA
  | .mk _ _ c _ => c

/-- Field accessor for `TreeDef::vars`. -/
def TreeDefA.vars : TreeDefA → List VarDefP
  | .mk _ _ _ v => v

/-- `TreeElem = std::variant<TreeDef, VarDef, VarAssign>`. -/
inductive TreeElemA where
  | node (t : TreeDefA)
  | varDef (v : VarDefP)
  | varAssign (name : String) (init : String)

/-- `tree_def_with_ports`: the synthetic
`SetBool(value <- "<init>", output -> <name>)` node built for an initialized
`var` declaration. -/
def tree_def_with_ports (name : String) (init : String) : TreeDefA :=
  TreeDefA.mk "SetBool"
    [ { ty := PortType.Input, blackboard_literal := true, node_port := "value",
        blackboard_value := BlackboardValue.literal init },
      { ty := PortType.Output, blackboard_literal := false, node_port := "output",
        blackboard_value := BlackboardValue.variable name PortType.Output } ]
    [] []

/-- The element loop of `tree_def_from_elems`: walk the parsed elements in
order, pushing each `TreeDef` onto `children`, and for each `VarDef` pushing
the synthetic `SetBool` child (when initialized) at the current position and
the `VarDef` onto `vars`; `VarAssign` elements match neither `get_if` branch
and are skipped. -/
def elemsSplit : List TreeElemA → List TreeDefA × List VarDefP
  | [] => ([], [])
  | TreeElemA.node t :: rest =>
    let (c, v) := elemsSplit rest
    (t :: c, v)
  | TreeElemA.varDef vd :: rest =>
    let (c, v) := elemsSplit rest
    match vd.init with
    | some i => (tree_def_with_ports vd.name i :: c, vd :: v)
    | none => (c, vd :: v)
  | TreeElemA.varAssign _ _ :: rest => elemsSplit rest

/-- `tree_def_from_elems`: assemble a parent `TreeDef` from its parsed block
elements. -/
def tree_def_from_elems (name : String) (pms : List PortMapR)
    (elems : List TreeElemA) : TreeDefA :=
  TreeDefA.mk name pms (elemsSplit elems).1 (elemsSplit elems).2

section Atoi

/-- Value of a digit run (most significant first). -/
def digitsVal (l : List Char) : Int :=
  l.foldl (fun acc c => acc * 10 + (c.toNat - '0'.toNat : Int)) 0

/-- `std::atoi`: skip whitespace, read an optional sign and a decimal digit
run; with no digits the result is 0. (Overflow is undefined behavior in C and
not modelled; no claim involves values near `INT_MAX`.) -/
def atoi (s : String) : Int :=
  let cs := s.toList.dropWhile isSpaceC
  match cs with
  | '-' :: rest => -(digitsVal (rest.takeWhile Char.isDigit))
  | '+' :: rest => digitsVal (rest.takeWhile Char.isDigit)
  | _ => digitsVal (cs.takeWhile Char.isDigit)

end Atoi

/-- `PortSpec`: a declared subtree parameter (direction and key). -/
structure PortSpec where
  ty : PortType
  key : String
deriving DecidableEq, Repr

/-- The state-carrying payload of each built-in `BehaviorNode` subclass, plus
two stand-ins for user-registered leaves (the engine treats any
`BehaviorNode` uniformly through its virtual `tick`):
`userLeaf r` models a stateless leaf that always returns `r` (such as the
`CatchBall`/`ThrowBall` conditions of the examples), and `counterLeaf k`
models an action leaf such as `PrintNode` of `src/main.cc` that returns
Success, with `k` recording how many times it has been ticked. -/
inductive NodeKind where
  | sequence (currentChild : Nat)
  | reactiveSequence
  | fallback (currentChild : Nat)
  | reactiveFallback
  | forceSuccess
  | forceFailure
  | inverter
  | repeatNode (n : Int)
  | retryNode (n : Int)
  | trueNode
  | falseNode
  | setBool
  | ifNode
  | subtree (blackboard : Blackboard) (params : List PortSpec)
  | userLeaf (result : BehaviorResult)
  | counterLeaf (count : Nat)

/-- `BehaviorNodeContainer`: type name, the owned `BehaviorNode` (absent when
the `unique_ptr` is null), the node's port-map table, and the owned children. -/
inductive BNode where
  | mk (name : String) (kind : Option NodeKind) (bbmap : BBMap)
       (children : List BNode)

/-- Accessor for `BehaviorNodeContainer::name`. -/
def BNode.name : BNode → String
  | .mk n _ _ _ => n

/-- Accessor for the owned `BehaviorNode` payload. -/
def BNode.kind : BNode → Option NodeKind
  | .mk _ k _ _ => k

/-- Accessor for `BehaviorNodeContainer::blackboard_map`. -/
def BNode.bbmap : BNode → BBMap
  | .mk _ _ m _ => m

/-- Accessor for `BehaviorNodeContainer::child_nodes`. -/
def BNode.children : BNode → List BNode
  | .mk _ _ _ c => c

/-- `Context`: the blackboard plus the two rebinding slots
(`blackboard_map` and `child_nodes` are pointers in the C++; here they hold
the current node's table and children by value, and "restoring the pointer"
is putting the saved value back). -/
structure Ctx where
  blackboard : Blackboard
  bbmap : BBMap
  children : List BNode

/-- `Context::get`: resolve a port name through the current port-map table.
Absent key, or a variable of direction Output, or a missing blackboard
variable all read as `none`; a literal reads as itself. -/
def ctxGet (ctx : Ctx) (port : String) : Option String :=
  match bbmapFind ctx.bbmap port with
  | some (BlackboardValue.variable name ty) =>
    if ty = PortType.Output then none else bbFind ctx.blackboard name
  | some (BlackboardValue.literal s) => some s
  | none => none

/-- `Context::set`: write a port. Absent key throws `undefined_port_error`,
an Input-direction variable throws `write_input_port_error`, a literal throws
`write_to_literal_error`; otherwise the blackboard variable is assigned. -/
def ctxSet (ctx : Ctx) (port : String) (value : String) : Except RErr Ctx :=
  match bbmapFind ctx.bbmap port with
  | none => Except.error RErr.undefinedPort
  | some (BlackboardValue.variable name ty) =>
    if ty = PortType.Input then Except.error RErr.writeInputPort
    else Except.ok { ctx with blackboard := bbSet ctx.blackboard name value }
  | some (BlackboardValue.literal _) => Except.error RErr.writeToLiteral

/-- The implicit `int → size_t` conversion applied to the index in
`Context::tick_child` (`children->size() <= idx` compares after converting
`idx` to the unsigned 64-bit type): reduction modulo 2^64. -/
def sizeTOfInt (idx : Int) : Nat :=
  (idx % (2 : Int) ^ 64).toNat

/-- The type of one container tick: the result (or propagated exception),
the updated node, and the context after the call. -/
abbrev TickFun := BNode → Ctx → Except RErr BehaviorResult × BNode × Ctx

/-- `Context::tick_child`: out-of-range indices (after the unsigned
conversion) yield `none` without ticking anything; otherwise the child at the
index is ticked and its update is stored back into the children vector (the
C++ mutates the element in place). -/
def tickChildWith (ct : TickFun) (idx : Int) (ctx : Ctx) :
    Except RErr (Option BehaviorResult) × Ctx :=
  let i := sizeTOfInt idx
  if h : i < ctx.children.length then
    let (res, child2, ctx2) := ct (ctx.children.get ⟨i, h⟩) ctx
    let ctx3 := { ctx2 with children := ctx2.children.set i child2 }
    match res with
    | Except.ok r => (Except.ok (some r), ctx3)
    | Except.error e => (Except.error e, ctx3)
  else (Except.ok none, ctx)

/-- The while loop of `SequenceNode::tick`: tick children from the cursor;
Success advances and continues, Fail advances and breaks, Running breaks with
the cursor kept; leaving by the guard returns the carried result, which on
this loop shape is always Success. The first argument is an iteration bound
(`children.length + 1` at entry always suffices, because ticking never
changes the children count and every continuing step advances the cursor). -/
def seqLoopWith (ct : TickFun) : Nat → Nat → Ctx →
    Except RErr BehaviorResult × Nat × Ctx
  | 0, cur, ctx => (Except.error RErr.outOfFuel, cur, ctx)
  | it + 1, cur, ctx =>
    if h : cur < ctx.children.length then
      let (res, child2, ctx2) := ct (ctx.children.get ⟨cur, h⟩) ctx
      let ctx3 := { ctx2 with children := ctx2.children.set cur child2 }
      match res with
      | Except.error e => (Except.error e, cur, ctx3)
      | Except.ok BehaviorResult.Success => seqLoopWith ct it (cur + 1) ctx3
      | Except.ok BehaviorResult.Fail => (Except.ok BehaviorResult.Fail, cur + 1, ctx3)
      | Except.ok BehaviorResult.Running => (Except.ok BehaviorResult.Running, cur, ctx3)
    else (Except.ok BehaviorResult.Success, cur, ctx)

/-- `SequenceNode::tick`: run the loop from the stored cursor, then reset the
cursor to 0 when it equals the children count (an exception skips the reset,
as the C++ unwinds before reaching it). -/
def seqTickWith (ct : TickFun) (cur : Nat) (ctx : Ctx) :
    Except RErr BehaviorResult × Nat × Ctx :=
  match seqLoopWith ct (ctx.children.length + 1) cur ctx with
  | (Except.error e, cur2, ctx2) => (Except.error e, cur2, ctx2)
  | (Except.ok r, cur2, ctx2) =>
    (Except.ok r, if cur2 = ctx2.children.length then 0 else cur2, ctx2)

/-- The while loop of `FallbackNode::tick`. Note the source's extra increment:
the `switch` advances the cursor on Success (and on Fail), and the shared
`if (break_out) { current_child++; break; }` advances it once more — so a
Success leaves the loop with the cursor advanced by two and a Running with it
advanced by one. Leaving by the guard returns the carried Fail. -/
def fbLoopWith (ct : TickFun) : Nat → Nat → Ctx →
    Except RErr BehaviorResult × Nat × Ctx
  | 0, cur, ctx => (Except.error RErr.outOfFuel, cur, ctx)
  | it + 1, cur, ctx =>
    if h : cur < ctx.children.length then
      let (res, child2, ctx2) := ct (ctx.children.get ⟨cur, h⟩) ctx
      let ctx3 := { ctx2 with children := ctx2.children.set cur child2 }
      match res with
      | Except.error e => (Except.error e, cur, ctx3)
      | Except.ok BehaviorResult.Success => (Except.ok BehaviorResult.Success, cur + 2, ctx3)
      | Except.ok BehaviorResult.Fail => fbLoopWith ct it (cur + 1) ctx3
      | Except.ok BehaviorResult.Running => (Except.ok BehaviorResult.Running, cur + 1, ctx3)
    else (Except.ok BehaviorResult.Fail, cur, ctx)

/-- `FallbackNode::tick`: run the loop from the stored cursor, then reset the
cursor to 0 only when it equals the children count exactly (a cursor that
overshot past the end is not reset). -/
def fbTickWith (ct : TickFun) (cur : Nat) (ctx : Ctx) :
    Except RErr BehaviorResult × Nat × Ctx :=
  match fbLoopWith ct (ctx.children.length + 1) cur ctx with
  | (Except.error e, cur2, ctx2) => (Except.error e, cur2, ctx2)
  | (Except.ok r, cur2, ctx2) =>
    (Except.ok r, if cur2 = ctx2.children.length then 0 else cur2, ctx2)

/-- `ForceSuccessNode::tick` / `ForceFailureNode::tick` (they differ only in
the constant returned when the first child is not Running): tick the first
child if any; Running passes through, anything else becomes the constant. -/
def forceTickWith (ct : TickFun) (constRes : BehaviorResult) (ctx : Ctx) :
    Except RErr BehaviorResult × Ctx :=
  if h : 0 < ctx.children.length then
    let (res, child2, ctx2) := ct (ctx.children.get ⟨0, h⟩) ctx
    let ctx3 := { ctx2 with children := ctx2.children.set 0 child2 }
    match res with
    | Except.error e => (Except.error e, ctx3)
    | Except.ok BehaviorResult.Running => (Except.ok BehaviorResult.Running, ctx3)
    | Except.ok _ => (Except.ok constRes, ctx3)
  else (Except.ok constRes, ctx)

/-- `InverterNode::tick`: tick the first child; Success and Fail are swapped,
Running passes through; with no child the initial Fail is returned. -/
def inverterTickWith (ct : TickFun) (ctx : Ctx) :
    Except RErr BehaviorResult × Ctx :=
  if h : 0 < ctx.children.length then
    let (res, child2, ctx2) := ct (ctx.children.get ⟨0, h⟩) ctx
    let ctx3 := { ctx2 with children := ctx2.children.set 0 child2 }
    match res with
    | Except.error e => (Except.error e, ctx3)
    | Except.ok BehaviorResult.Success => (Except.ok BehaviorResult.Fail, ctx3)
    | Except.ok BehaviorResult.Fail => (Except.ok BehaviorResult.Success, ctx3)
    | Except.ok BehaviorResult.Running => (Except.ok BehaviorResult.Running, ctx3)
  else (Except.ok BehaviorResult.Fail, ctx)

/-- `RepeatNode::tick`: read port `n` (absent throws `invalid_count_error`);
a zero stored counter is (re)initialized from `atoi`; a counter that is still
zero throws `invalid_count_error`; then decrement, return Success when the
counter hits zero without ticking the child, and otherwise tick child 0 —
a missing child gives Fail, child Success or Running gives Running, child
Fail resets the counter and gives Fail. -/
def repeatTickWith (ct : TickFun) (s : Int) (ctx : Ctx) :
    Except RErr BehaviorResult × Int × Ctx :=
  match ctxGet ctx "n" with
  | none => (Except.error RErr.invalidCount, s, ctx)
  | some str =>
    let s1 : Int := if s = 0 then atoi str else s
    if s1 = 0 then (Except.error RErr.invalidCount, s1, ctx)
    else if s1 - 1 = 0 then (Except.ok BehaviorResult.Success, s1 - 1, ctx)
    else
      match tickChildWith ct 0 ctx with
      | (Except.error e, ctx2) => (Except.error e, s1 - 1, ctx2)
      | (Except.ok none, ctx2) => (Except.ok BehaviorResult.Fail, s1 - 1, ctx2)
      | (Except.ok (some BehaviorResult.Success), ctx2) =>
        (Except.ok BehaviorResult.Running, s1 - 1, ctx2)
      | (Except.ok (some BehaviorResult.Running), ctx2) =>
        (Except.ok BehaviorResult.Running, s1 - 1, ctx2)
      | (Except.ok (some BehaviorResult.Fail), ctx2) =>
        (Except.ok BehaviorResult.Fail, 0, ctx2)

/-- `RetryNode::tick`: same shape as Repeat with Fail and Success exchanged
in the child-result dispatch: child Fail gives Running, child Success resets
the counter and gives Success. -/
def retryTickWith (ct : TickFun) (s : Int) (ctx : Ctx) :
    Except RErr BehaviorResult × Int × Ctx :=
  match ctxGet ctx "n" with
  | none => (Except.error RErr.invalidCount, s, ctx)
  | some str =>
    let s1 : Int := if s = 0 then atoi str else s
    if s1 = 0 then (Except.error RErr.invalidCount, s1, ctx)
    else if s1 - 1 = 0 then (Except.ok BehaviorResult.Success, s1 - 1, ctx)
    else
      match tickChildWith ct 0 ctx with
      | (Except.error e, ctx2) => (Except.error e, s1 - 1, ctx2)
      | (Except.ok none, ctx2) => (Except.ok BehaviorResult.Fail, s1 - 1, ctx2)
      | (Except.ok (some BehaviorResult.Fail), ctx2) =>
        (Except.ok BehaviorResult.Running, s1 - 1, ctx2)
      | (Except.ok (some BehaviorResult.Running), ctx2) =>
        (Except.ok BehaviorResult.Running, s1 - 1, ctx2)
      | (Except.ok (some BehaviorResult.Success), ctx2) =>
        (Except.ok BehaviorResult.Success, 0, ctx2)

/-- `SetBoolNode::tick`: read port `value`; when present, write it to port
`output` (which may throw); return Success. -/
def setBoolTick (ctx : Ctx) : Except RErr BehaviorResult × Ctx :=
  match ctxGet ctx "value" with
  | some v =>
    match ctxSet ctx "output" v with
    | Except.ok ctx2 => (Except.ok BehaviorResult.Success, ctx2)
    | Except.error e => (Except.error e, ctx)
  | none => (Except.ok BehaviorResult.Success, ctx)

/-- `IfNode::tick`: tick child 0; if it returned Fail, tick child 2 and
return its result (Fail when absent); otherwise tick child 1 and return its
result (Fail when absent). -/
def ifTickWith (ct : TickFun) (ctx : Ctx) : Except RErr BehaviorResult × Ctx :=
  match tickChildWith ct 0 ctx with
  | (Except.error e, ctx2) => (Except.error e, ctx2)
  | (Except.ok r0, ctx2) =>
    if r0 = some BehaviorResult.Fail then
      match tickChildWith ct 2 ctx2 with
      | (Except.error e, ctx3) => (Except.error e, ctx3)
      | (Except.ok (some r2), ctx3) => (Except.ok r2, ctx3)
      | (Except.ok none, ctx3) => (Except.ok BehaviorResult.Fail, ctx3)
    else
      match tickChildWith ct 1 ctx2 with
      | (Except.error e, ctx3) => (Except.error e, ctx3)
      | (Except.ok (some r2), ctx3) => (Except.ok r2, ctx3)
      | (Except.ok none, ctx3) => (Except.ok BehaviorResult.Fail, ctx3)

/-- The parameter copy-in loop of `SubtreeNode::tick`: for each parameter of
direction Input or InOut, read it from the parent context and, when present,
store it into the local blackboard under the parameter's key. -/
def subtreeCopyIn : List PortSpec → Ctx → Blackboard → Blackboard
  | [], _, bb => bb
  | p :: rest, ctx, bb =>
    if p.ty ≠ PortType.Input ∧ p.ty ≠ PortType.InOut then subtreeCopyIn rest ctx bb
    else
      match ctxGet ctx p.key with
      | some v => subtreeCopyIn rest ctx (bbSet bb p.key v)
      | none => subtreeCopyIn rest ctx bb

/-- The parameter copy-out loop of `SubtreeNode::tick`, with the source's
guard transcribed verbatim: `param.ty != Output || param.ty != InOut`
skips the parameter. The loop may in principle throw through `ctx.set`. -/
def subtreeCopyOut (localBB : Blackboard) :
    List PortSpec → Ctx → Except RErr Unit × Ctx
  | [], ctx => (Except.ok (), ctx)
  | p :: rest, ctx =>
    if p.ty ≠ PortType.Output ∨ p.ty ≠ PortType.InOut then
      subtreeCopyOut localBB rest ctx
    else
      match bbFind localBB p.key with
      | some v =>
        match ctxSet ctx p.key v with
        | Except.ok ctx2 => subtreeCopyOut localBB rest ctx2
        | Except.error e => (Except.error e, ctx)
      | none => subtreeCopyOut localBB rest ctx

/-- `SubtreeNode::tick`: copy declared inputs into the local blackboard, swap
the local blackboard into the context, tick child 0 (the loaded subtree
root), swap back, and run the copy-out loop. The two swaps are plain
statements with no try/catch: when the child tick throws, the exception
propagates with the context still holding the local blackboard and the node
holding the parent's. -/
def subtreeTickWith (ct : TickFun) (bb : Blackboard) (params : List PortSpec)
    (ctx : Ctx) : Except RErr BehaviorResult × NodeKind × Ctx :=
  let bb1 := subtreeCopyIn params ctx bb
  let parentBB := ctx.blackboard
  let ctxSwapped : Ctx := { ctx with blackboard := bb1 }
  match tickChildWith ct 0 ctxSwapped with
  | (Except.error e, ctx2) =>
    (Except.error e, NodeKind.subtree parentBB params, ctx2)
  | (Except.ok subRes, ctx2) =>
    let res := match subRes with
      | some r => r
      | none => BehaviorResult.Success
    let localBB := ctx2.blackboard
    let ctx3 : Ctx := { ctx2 with blackboard := parentBB }
    match subtreeCopyOut localBB params ctx3 with
    | (Except.ok _, ctx4) => (Except.ok res, NodeKind.subtree localBB params, ctx4)
    | (Except.error e, ctx4) => (Except.error e, NodeKind.subtree localBB params, ctx4)

/-- Dispatch one tick of a node payload in an already-rebound context,
returning the result, the updated payload, and the context. -/
def kindTickWith (ct : TickFun) (k : NodeKind) (ctx : Ctx) :
    Except RErr BehaviorResult × NodeKind × Ctx :=
  match k with
  | NodeKind.sequence cur =>
    let (r, cur2, ctx2) := seqTickWith ct cur ctx
    (r, NodeKind.sequence cur2, ctx2)
  | NodeKind.reactiveSequence =>
    let (r, _, ctx2) := seqLoopWith ct (ctx.children.length + 1) 0 ctx
    (r, NodeKind.reactiveSequence, ctx2)
  | NodeKind.fallback cur =>
    let (r, cur2, ctx2) := fbTickWith ct cur ctx
    (r, NodeKind.fallback cur2, ctx2)
  | NodeKind.reactiveFallback =>
    let (r, _, ctx2) := fbLoopWith ct (ctx.children.length + 1) 0 ctx
    (r, NodeKind.reactiveFallback, ctx2)
  | NodeKind.forceSuccess =>
    let (r, ctx2) := forceTickWith ct BehaviorResult.Success ctx
    (r, NodeKind.forceSuccess, ctx2)
  | NodeKind.forceFailure =>
    let (r, ctx2) := forceTickWith ct BehaviorResult.Fail ctx
    (r, NodeKind.forceFailure, ctx2)
  | NodeKind.inverter =>
    let (r, ctx2) := inverterTickWith ct ctx
    (r, NodeKind.inverter, ctx2)
  | NodeKind.repeatNode s =>
    let (r, s2, ctx2) := repeatTickWith ct s ctx
    (r, NodeKind.repeatNode s2, ctx2)
  | NodeKind.retryNode s =>
    let (r, s2, ctx2) := retryTickWith ct s ctx
    (r, NodeKind.retryNode s2, ctx2)
  | NodeKind.trueNode => (Except.ok BehaviorResult.Success, k, ctx)
  | NodeKind.falseNode => (Except.ok BehaviorResult.Fail, k, ctx)
  | NodeKind.setBool =>
    let (r, ctx2) := setBoolTick ctx
    (r, NodeKind.setBool, ctx2)
  | NodeKind.ifNode =>
    let (r, ctx2) := ifTickWith ct ctx
    (r, NodeKind.ifNode, ctx2)
  | NodeKind.subtree bb params => subtreeTickWith ct bb params ctx
  | NodeKind.userLeaf r => (Except.ok r, k, ctx)
  | NodeKind.counterLeaf c => (Except.ok BehaviorResult.Success, NodeKind.counterLeaf (c + 1), ctx)

/-- `BehaviorNodeContainer::tick` for one level, parameterized by the function
used to tick descendants: save the context's port-map table and children
slots, rebind them to this node's own, run the payload, write the (possibly
mutated) children back into the node, and restore the two saved slots — on
the exception path exactly as on the normal one (the C++ try/catch). A
container with a null node pointer returns Success untouched. -/
def containerStep (ct : TickFun) (node : BNode) (ctx : Ctx) :
    Except RErr BehaviorResult × BNode × Ctx :=
  match node with
  | BNode.mk name (some k) bbmap children =>
    let prevChildren := ctx.children
    let prevBBMap := ctx.bbmap
    let ctx1 : Ctx := { ctx with children := children, bbmap := bbmap }
    let (res, k2, ctx2) := kindTickWith ct k ctx1
    let node2 := BNode.mk name (some k2) bbmap ctx2.children
    let ctx3 : Ctx := { ctx2 with children := prevChildren, bbmap := prevBBMap }
    (res, node2, ctx3)
  | BNode.mk _ none _ _ => (Except.ok BehaviorResult.Success, node, ctx)

/-- The tick engine: the fuel counts the tree depth the run may descend
through (each level costs one unit); exhaustion returns the `outOfFuel`
marker, which no actual run with sufficient fuel produces. -/
def containerTick : Nat → TickFun
  | 0 => fun node ctx => (Except.error RErr.outOfFuel, node, ctx)
  | fuel + 1 => containerStep (containerTick fuel)

/-- `tick_child` at a given fuel (the form the control nodes use). -/
def tick_child (fuel : Nat) (idx : Int) (ctx : Ctx) :
    Except RErr (Option BehaviorResult) × Ctx :=
  tickChildWith (containerTick fuel) idx ctx

/-- `SequenceNode::tick` at a given fuel for the child ticks. -/
def seqTick (fuel : Nat) (cur : Nat) (ctx : Ctx) :
    Except RErr BehaviorResult × Nat × Ctx :=
  seqTickWith (containerTick fuel) cur ctx

/-- `FallbackNode::tick` at a given fuel for the child ticks. -/
def fbTick (fuel : Nat) (cur : Nat) (ctx : Ctx) :
    Except RErr BehaviorResult × Nat × Ctx :=
  fbTickWith (containerTick fuel) cur ctx

/-- `IfNode::tick` at a given fuel for the child ticks. -/
def ifTick (fuel : Nat) (ctx : Ctx) : Except RErr BehaviorResult × Ctx :=
  ifTickWith (containerTick fuel) ctx

/-- The outer driver loop of `src/main.cc`: tick the tree root a fixed number
of times, each tick through a fresh `Context` seeded with the blackboard
(`tick_node` copies the blackboard into the context by value, so blackboard
changes do not persist between driver ticks there); the tree node itself
persists. Returns the list of per-tick results and the final tree. -/
def driveN (fuel : Nat) : Nat → BNode → Blackboard →
    List (Except RErr BehaviorResult) × BNode
  | 0, node, _ => ([], node)
  | n + 1, node, bb =>
    let (r, node2, _) := containerTick fuel node { blackboard := bb, bbmap := [], children := [] }
    let (rs, node3) := driveN fuel n node2 bb
    (r :: rs, node3)

/-- The Boolean guard under which a Repeat/Retry tick ends in
`invalid_count_error`: the `n` port reads as absent, or the (re)initialized
counter is zero, or the counter allows a child tick and that child tick
itself propagates `invalid_count_error`. -/
def invalidCountTrigger (ct : TickFun) (s : Int) (ctx : Ctx) : Bool :=
  match ctxGet ctx "n" with
  | none => true
  | some str =>
    let s1 : Int := if s = 0 then atoi str else s
    if s1 = 0 then true
    else if s1 - 1 = 0 then false
    else
      match (tickChildWith ct 0 ctx).1 with
      | Except.error RErr.invalidCount => true
      | _ => false

/-- Two stacked `Inverter` containers around a node (each with an empty
port-map table, as loaded from a bare `Inverter { ... }` call). -/
def doubleInverter (c : BNode) : BNode :=
  BNode.mk "Inverter" (some NodeKind.inverter) []
    [BNode.mk "Inverter" (some NodeKind.inverter) [] [c]]

section Fixtures

/-- A loaded `true` leaf container. -/
def trueC : BNode := BNode.mk "true" (some NodeKind.trueNode) [] []

/-- A loaded `false` leaf container. -/
def falseC : BNode := BNode.mk "false" (some NodeKind.falseNode) [] []

/-- A user leaf container that always returns Running. -/
def runC : BNode := BNode.mk "run" (some (NodeKind.userLeaf BehaviorResult.Running)) [] []

/-- A loaded `Print(input <- "Hello")` leaf, modelled by a counting leaf. -/
def printC : BNode :=
  BNode.mk "Print" (some (NodeKind.counterLeaf 0))
    [("input", BlackboardValue.literal "Hello")] []

/-- The loaded tree of `tree main = Repeat(n <- "5") { Print(input <- "Hello") }`. -/
def repeatMainC : BNode :=
  BNode.mk "Repeat" (some (NodeKind.repeatNode 0))
    [("n", BlackboardValue.literal "5")] [printC]

/-- A Repeat whose `n` port is bound to the decimal-integer literal `"0"`. -/
def repeatZeroC : BNode :=
  BNode.mk "Repeat" (some (NodeKind.repeatNode 0))
    [("n", BlackboardValue.literal "0")] [printC]

/-- A Repeat whose `n` port is bound to the non-integer literal `"5x"`. -/
def repeatJunkC : BNode :=
  BNode.mk "Repeat" (some (NodeKind.repeatNode 0))
    [("n", BlackboardValue.literal "5x")] [trueC]

/-- An empty driver context (what `tick_node` builds around a blackboard). -/
def ctx0 : Ctx := { blackboard := [], bbmap := [], children := [] }

/-- A context rebound to a two-child Sequence whose first child fails. -/
def ctxC3 : Ctx := { blackboard := [], bbmap := [], children := [falseC, trueC] }

/-- A context rebound to a two-child Fallback whose first child is Running. -/
def ctxFb : Ctx := { blackboard := [], bbmap := [], children := [runC, trueC] }

/-- A context rebound to a three-child Fallback whose first child succeeds. -/
def ctxFb3 : Ctx := { blackboard := [], bbmap := [], children := [trueC, trueC, trueC] }

/-- A context whose port-map table binds `n` to the literal `"0"`. -/
def ctxNZero : Ctx :=
  { blackboard := [], bbmap := [("n", BlackboardValue.literal "0")], children := [] }

/-- A `SetBool` container whose table lacks the `output` key, so its tick
throws `undefined_port_error`. -/
def badLeafC : BNode :=
  BNode.mk "SetBool" (some NodeKind.setBool)
    [("value", BlackboardValue.literal "1")] []

/-- A loaded subtree call with one Input parameter `p` mapped from the parent
variable `pv`, whose inner tree is the raising leaf `badLeafC`. -/
def subtreeNodeC : BNode :=
  BNode.mk "SubTree" (some (NodeKind.subtree [] [⟨PortType.Input, "p"⟩]))
    [("p", BlackboardValue.variable "pv" PortType.Input)] [badLeafC]

/-- The parent context for `subtreeNodeC`: the blackboard holds `pv = "42"`. -/
def c1ctx : Ctx := { blackboard := [("pv", "42")], bbmap := [], children := [] }

/-- A `SetBool` that writes the literal `"42"` to the variable `x` (the inner
tree of the C2 subtree fixture). -/
def setterC : BNode :=
  BNode.mk "SetBool" (some NodeKind.setBool)
    [("value", BlackboardValue.literal "42"),
     ("output", BlackboardValue.variable "x" PortType.Output)] []

/-- A loaded subtree call with one Output parameter `x` mapped to the parent
variable `px`, whose inner tree writes `x` into the (local) blackboard. -/
def subOutC : BNode :=
  BNode.mk "Sub2" (some (NodeKind.subtree [] [⟨PortType.Output, "x"⟩]))
    [("x", BlackboardValue.variable "px" PortType.Output)] [setterC]

/-- An AST node named `A` with no ports, children or vars. -/
def aNode : TreeDefA := TreeDefA.mk "A" [] [] []

/-- A context rebound to an `if` node with only a condition child (no then
branch), the condition succeeding. -/
def ctxTrue1 : Ctx := { blackboard := [], bbmap := [], children := [trueC] }

end Fixtures

/-! ## Shared lemmas -/

/-- One container step restores the context's children and port-map slots on
every exit path (the C++ restores them both after a normal return and in the
catch block before rethrowing). -/
theorem containerStep_restores (ct : TickFun) (node : BNode) (ctx : Ctx) :
    ((containerStep ct node ctx).2.2).children = ctx.children ∧
    ((containerStep ct node ctx).2.2).bbmap = ctx.bbmap := by
  rcases node with ⟨name, k, bbmap, children⟩
  cases k with
  | none => simp [containerStep]
  | some k => simp [containerStep]

/-- The engine restores the context's children and port-map slots at every
fuel value. -/
theorem containerTick_restores (fuel : Nat) (node : BNode) (ctx : Ctx) :
    ((containerTick fuel node ctx).2.2).children = ctx.children ∧
    ((containerTick fuel node ctx).2.2).bbmap = ctx.bbmap := by
  cases fuel with
  | zero => simp [containerTick]
  | succ fuel => exact containerStep_restores (containerTick fuel) node ctx

/-- `tick_child` preserves the length of the current children list: the
in-range branch stores the updated child back at the same index. -/
theorem tick_child_len (fuel : Nat) (idx : Int) (ctx : Ctx) :
    ((tick_child fuel idx ctx).2).children.length = ctx.children.length := by
  simp only [tick_child, tickChildWith]
  split
  case isTrue h =>
    have hr := (containerTick_restores fuel (ctx.children.get ⟨sizeTOfInt idx, h⟩) ctx).1
    simp only [List.get_eq_getElem] at hr
    split <;> simp [List.length_set, hr]
  case isFalse h => rfl

/-- The `"<->"` branch of `port_map` is dead code: a slice that starts with
`"<->"` also starts with `"<-"`, so the earlier Input branch always wins and
no successful parse ever carries direction InOut. -/
theorem port_map_never_inout (i r : List Char) (pm : PortMapR)
    (h : port_map i = Except.ok (r, pm)) : pm.ty ≠ PortType.InOut := by
  unfold port_map at h
  cases hid : identifier i with
  | error e => rw [hid] at h; exact absurd h (by simp)
  | ok p =>
    obtain ⟨rest, name⟩ := p
    rw [hid] at h
    simp only at h
    by_cases h2 : (space rest).take 2 = ['<', '-']
    · rw [if_pos h2] at h
      simp only at h
      split at h
      · rcases h with ⟨-, rfl⟩
        simp
      · split at h
        · exact absurd h (by simp)
        · simp only [Except.ok.injEq, Prod.mk.injEq] at h
          rcases h with ⟨-, rfl⟩
          simp
    · rw [if_neg h2] at h
      by_cases h3 : (space rest).take 2 = ['-', '>']
      · rw [if_pos h3] at h
        simp only at h
        split at h
        · rcases h with ⟨-, rfl⟩
          simp
        · split at h
          · exact absurd h (by simp)
          · simp only [Except.ok.injEq, Prod.mk.injEq] at h
            rcases h with ⟨-, rfl⟩
            simp
      · rw [if_neg h3] at h
        by_cases h4 : (space rest).take 3 = ['<', '-', '>']
        · exfalso
          apply h2
          have h24 : (space rest).take 2 = ((space rest).take 3).take 2 := by
            rw [List.take_take]
            norm_num
          rw [h24, h4]
          rfl
        · rw [if_neg h4] at h
          exact absurd h (by simp)

/-! ## Claim theorems -/

/-- C1: evaluating the code at the failing input. A SubtreeNode (one Input
parameter `p` drawn from parent variable `pv`) whose inner leaf raises
`undefined_port_error` propagates the exception with the container's
port-map and children slots duly restored — but with the context's
blackboard still holding the subtree's local map (`p = "42"`), not the
parent one (`pv = "42"`), because `SubtreeNode::tick` has no try/catch
around `tick_child` and the second `std::swap` is skipped on unwind. -/
theorem c1_subtree_blackboard_not_restored_on_raise :
    containerTick 9 subtreeNodeC c1ctx =
      (Except.error RErr.undefinedPort,
       BNode.mk "SubTree"
         (some (NodeKind.subtree [("pv", "42")] [⟨PortType.Input, "p"⟩]))
         [("p", BlackboardValue.variable "pv" PortType.Input)] [badLeafC],
       { blackboard := [("p", "42")], bbmap := [], children := [] }) ∧
    ((containerTick 9 subtreeNodeC c1ctx).2.2).blackboard ≠ c1ctx.blackboard ∧
    ((containerTick 9 subtreeNodeC c1ctx).2.2).bbmap = c1ctx.bbmap ∧
    ((containerTick 9 subtreeNodeC c1ctx).2.2).children = c1ctx.children :=
  ⟨rfl, by decide, rfl, rfl⟩

/-- C2: the copy-out loop of `SubtreeNode::tick` never writes anything back:
its guard `param.ty != Output || param.ty != InOut` holds for every
direction, so every iteration continues. Concretely, a subtree with an
Output parameter `x` mapped to parent variable `px`, whose inner tree writes
`x = "42"` into the (local) blackboard, returns Success with the parent
blackboard unchanged — the value stays only in the node's local map. -/
theorem c2_subtree_output_copy_back_never_happens :
    (∀ (localBB : Blackboard) (ps : List PortSpec) (ctx : Ctx),
        subtreeCopyOut localBB ps ctx = (Except.ok (), ctx)) ∧
    containerTick 9 subOutC ctx0 =
      (Except.ok BehaviorResult.Success,
       BNode.mk "Sub2"
         (some (NodeKind.subtree [("x", "42")] [⟨PortType.Output, "x"⟩]))
         [("x", BlackboardValue.variable "px" PortType.Output)] [setterC],
       ctx0) := by
  constructor
  · intro localBB ps
    induction ps with
    | nil => intro ctx; rfl
    | cons p rest ih =>
      intro ctx
      have hg : p.ty ≠ PortType.Output ∨ p.ty ≠ PortType.InOut := by
        rcases p with ⟨ty, key⟩
        cases ty <;> simp
      simp only [subtreeCopyOut, if_pos hg]
      exact ih ctx
  · rfl

/-- C3 counterexample: a two-child memoryful Sequence whose first child
fails returns Fail with the cursor moved to 1 — the cursor is advanced past
the failing child, not retained (and 1 is not the reset case, the children
count being 2). -/
theorem c3_counterexample :
    seqTick 3 0 ctxC3 = (Except.ok BehaviorResult.Fail, 1, ctxC3) ∧
    ctxC3.children.length = 2 :=
  ⟨rfl, rfl⟩

/-- C4 counterexample: a two-child memoryful Fallback whose first child is
Running returns Running with the cursor moved to 1, and a three-child
Fallback whose first child succeeds returns Success with the cursor moved to
2 — in neither case is the cursor retained. -/
theorem c4_counterexample :
    fbTick 3 0 ctxFb = (Except.ok BehaviorResult.Running, 1, ctxFb) ∧
    fbTick 3 0 ctxFb3 = (Except.ok BehaviorResult.Success, 2, ctxFb3) ∧
    ctxFb.children.length = 2 ∧ ctxFb3.children.length = 3 :=
  ⟨rfl, rfl, rfl, rfl⟩

/-- C5: evaluating the code at the failing input. Because `port_map` tests
the two-character arrow `"<-"` before the three-character `"<->"`, an InOut
mapping `a <-> b` (or with a literal right-hand side) is entered through the
Input branch, whose remainder `"> b"` then fails to parse as an identifier:
the parse errors out instead of yielding an InOut `PortMap`. -/
theorem c5_inout_arrow_misparsed :
    port_map ("a <-> b".toList) = Except.error "Expected an identifier" ∧
    port_map ("a <-> \"lit\"".toList) = Except.error "Expected an identifier" :=
  ⟨rfl, rfl⟩

/-- C6: the end-to-end Repeat scenario. Driving
`tree main = Repeat(n <- "5") { Print(input <- "Hello") }` for five ticks
from an empty blackboard returns Running on ticks 1–4 and Success on tick 5,
and the Print leaf's invocation counter ends at exactly 4 (the fifth tick
decrements the remaining counter to 0 and returns Success without ticking
the child, whose counter also shows the Repeat counter reset to 0). -/
theorem c6_repeat_five_ticks_child_four_times :
    driveN 9 5 repeatMainC [] =
      ([Except.ok BehaviorResult.Running, Except.ok BehaviorResult.Running,
        Except.ok BehaviorResult.Running, Except.ok BehaviorResult.Running,
        Except.ok BehaviorResult.Success],
       BNode.mk "Repeat" (some (NodeKind.repeatNode 0))
         [("n", BlackboardValue.literal "5")]
         [BNode.mk "Print" (some (NodeKind.counterLeaf 4))
           [("input", BlackboardValue.literal "Hello")] []]) :=
  rfl

/-- C7 counterexample: a Repeat whose `n` port is bound to the decimal
integer literal `"0"` raises `invalid_count_error` (atoi yields 0, which the
code conflates with "uninitialized"), while one bound to the non-integer
string `"5x"` does not raise (atoi yields 5): the claimed equivalence fails
in both directions. -/
theorem c7_counterexample :
    (containerTick 3 repeatZeroC ctx0).1 = Except.error RErr.invalidCount ∧
    (containerTick 3 repeatJunkC ctx0).1 = Except.ok BehaviorResult.Running :=
  ⟨rfl, rfl⟩

/-- C8 counterexample: in a block whose elements are a node call `A` followed
by `var x = true`, the synthetic `SetBool` child ends up after `A` in the
parent's children — it is inserted at the var statement's position, not
prepended. -/
theorem c8_counterexample :
    (tree_def_from_elems "Seq" []
        [TreeElemA.node aNode, TreeElemA.varDef ⟨"x", some "true"⟩]).children =
      [aNode, tree_def_with_ports "x" "true"] ∧
    (tree_def_with_ports "x" "true").name = "SetBool" ∧
    aNode.name = "A" :=
  ⟨rfl, rfl, rfl⟩

/-- C8 amended: `tree_def_from_elems` builds the children list by walking the
block elements in order — each node call contributes itself and each
initialized `var` contributes its synthetic `SetBool` at that position (so
the synthetic child is inserted in element order, not prepended); a `var`
without initializer contributes to `vars` only, and `VarAssign` elements
contribute nothing. -/
theorem c8_amended (name : String) (pms : List PortMapR) (elems : List TreeElemA) :
    (tree_def_from_elems name pms elems).children =
      elems.filterMap (fun e =>
        match e with
        | TreeElemA.node t => some t
        | TreeElemA.varDef v => v.init.map (fun i => tree_def_with_ports v.name i)
        | TreeElemA.varAssign _ _ => none) ∧
    (tree_def_from_elems name pms elems).vars =
      elems.filterMap (fun e =>
        match e with
        | TreeElemA.varDef v => some v
        | _ => none) := by
  simp only [tree_def_from_elems, TreeDefA.children, TreeDefA.vars]
  induction elems with
  | nil => exact ⟨rfl, rfl⟩
  | cons e rest ih =>
    cases e with
    | node t => simp [elemsSplit, List.filterMap_cons, ih.1, ih.2]
    | varDef v =>
      cases hv : v.init with
      | none => simp [elemsSplit, hv, List.filterMap_cons, ih.1, ih.2]
      | some i => simp [elemsSplit, hv, List.filterMap_cons, ih.1, ih.2]
    | varAssign n i => simp [elemsSplit, List.filterMap_cons, ih.1, ih.2]

/-- C3 amended: in a memoryful Sequence, when the child at the cursor returns
Fail the tick returns Fail with the cursor advanced by one (and reset to 0
exactly when it thereby reaches the children count); when the child at the
cursor returns Running the tick returns Running with the cursor retained.
(On Success the cursor advances and the loop continues, as in the source.) -/
theorem c3_amended (fuel cur : Nat) (ctx : Ctx) (h : cur < ctx.children.length)
    (n2 : BNode) (ctx2 : Ctx) :
    (containerTick fuel (ctx.children.get ⟨cur, h⟩) ctx =
        (Except.ok BehaviorResult.Fail, n2, ctx2) →
      seqTick fuel cur ctx =
        (Except.ok BehaviorResult.Fail,
         if cur + 1 = ctx.children.length then 0 else cur + 1,
         { ctx2 with children := ctx2.children.set cur n2 })) ∧
    (containerTick fuel (ctx.children.get ⟨cur, h⟩) ctx =
        (Except.ok BehaviorResult.Running, n2, ctx2) →
      seqTick fuel cur ctx =
        (Except.ok BehaviorResult.Running, cur,
         { ctx2 with children := ctx2.children.set cur n2 })) := by
  constructor <;> intro hc <;>
    have hrest : ctx2.children = ctx.children :=
      (congrArg (fun t => (t.2.2).children) hc).symm.trans
        (containerTick_restores fuel (ctx.children.get ⟨cur, h⟩) ctx).1
  · simp only [seqTick, seqTickWith, seqLoopWith, dif_pos h, hc]
    simp [List.length_set, hrest]
  · simp only [seqTick, seqTickWith, seqLoopWith, dif_pos h, hc]
    simp [List.length_set, hrest, Nat.ne_of_lt h]

/-- C4 amended: in a memoryful Fallback, when the child at the cursor returns
Success the tick returns Success with the cursor advanced by two (the
`switch` increments it once and the shared break-out path once more), and
when it returns Running the tick returns Running with the cursor advanced by
one; either way the cursor is reset to 0 only when it lands exactly on the
children count. (On Fail the cursor advances by one and the loop continues.) -/
theorem c4_amended (fuel cur : Nat) (ctx : Ctx) (h : cur < ctx.children.length)
    (n2 : BNode) (ctx2 : Ctx) :
    (containerTick fuel (ctx.children.get ⟨cur, h⟩) ctx =
        (Except.ok BehaviorResult.Success, n2, ctx2) →
      fbTick fuel cur ctx =
        (Except.ok BehaviorResult.Success,
         if cur + 2 = ctx.children.length then 0 else cur + 2,
         { ctx2 with children := ctx2.children.set cur n2 })) ∧
    (containerTick fuel (ctx.children.get ⟨cur, h⟩) ctx =
        (Except.ok BehaviorResult.Running, n2, ctx2) →
      fbTick fuel cur ctx =
        (Except.ok BehaviorResult.Running,
         if cur + 1 = ctx.children.length then 0 else cur + 1,
         { ctx2 with children := ctx2.children.set cur n2 })) := by
  constructor <;> intro hc <;>
    have hrest : ctx2.children = ctx.children :=
      (congrArg (fun t => (t.2.2).children) hc).symm.trans
        (containerTick_restores fuel (ctx.children.get ⟨cur, h⟩) ctx).1
  · simp only [fbTick, fbTickWith, fbLoopWith, dif_pos h, hc]
    simp [List.length_set, hrest]
  · simp only [fbTick, fbTickWith, fbLoopWith, dif_pos h, hc]
    simp [List.length_set, hrest]

/-- C3 amended, witnessed at concrete inputs: the two-child Sequence whose
first child fails advances the cursor to 1, and one whose first child is
Running keeps the cursor at 0. -/
theorem c3_amended_witness :
    seqTick 1 0 ctxC3 = (Except.ok BehaviorResult.Fail, 1, ctxC3) ∧
    seqTick 1 0 ctxFb = (Except.ok BehaviorResult.Running, 0, ctxFb) :=
  ⟨(c3_amended 1 0 ctxC3 (by decide) falseC ctxC3).1 rfl,
   (c3_amended 1 0 ctxFb (by decide) runC ctxFb).2 rfl⟩

/-- C4 amended, witnessed at concrete inputs: the three-child Fallback whose
first child succeeds moves the cursor to 2, and the two-child Fallback whose
first child is Running moves it to 1. -/
theorem c4_amended_witness :
    fbTick 1 0 ctxFb3 = (Except.ok BehaviorResult.Success, 2, ctxFb3) ∧
    fbTick 1 0 ctxFb = (Except.ok BehaviorResult.Running, 1, ctxFb) :=
  ⟨(c4_amended 1 0 ctxFb3 (by decide) trueC ctxFb3).1 rfl,
   (c4_amended 1 0 ctxFb (by decide) runC ctxFb).2 rfl⟩

/-- C7 amended: a Repeat (or Retry) tick ends in `invalid_count_error`
exactly when the `n` port reads as absent, or the counter being
(re)initialized comes out zero (`atoi` of the port string is 0 — which
happens both for non-numeric strings and for the literal `"0"` — when the
stored counter was 0, i.e. at the start of a repetition cycle), or the
count admits a child tick and the child tick itself propagates
`invalid_count_error`. -/
theorem c7_amended (fuel : Nat) (s : Int) (ctx : Ctx) :
    ((repeatTickWith (containerTick fuel) s ctx).1 = Except.error RErr.invalidCount ↔
      invalidCountTrigger (containerTick fuel) s ctx = true) ∧
    ((retryTickWith (containerTick fuel) s ctx).1 = Except.error RErr.invalidCount ↔
      invalidCountTrigger (containerTick fuel) s ctx = true) := by
  have key : ∀ ct : TickFun,
      ((repeatTickWith ct s ctx).1 = Except.error RErr.invalidCount ↔
        invalidCountTrigger ct s ctx = true) ∧
      ((retryTickWith ct s ctx).1 = Except.error RErr.invalidCount ↔
        invalidCountTrigger ct s ctx = true) := by
    intro ct
    cases hn : ctxGet ctx "n" with
    | none => simp [repeatTickWith, retryTickWith, invalidCountTrigger, hn]
    | some str =>
      simp only [repeatTickWith, retryTickWith, invalidCountTrigger, hn]
      by_cases h0 : (if s = 0 then atoi str else s) = 0
      · simp [h0]
      · by_cases h1 : (if s = 0 then atoi str else s) - 1 = 0
        · simp [h0, h1]
        · rcases htc : tickChildWith ct 0 ctx with ⟨res, ctx2⟩
          cases res with
          | error e => cases e <;> simp [h0, h1, htc]
          | ok o =>
            cases o with
            | none => simp [h0, h1, htc]
            | some r => cases r <;> simp [h0, h1, htc]
  exact key (containerTick fuel)

/-- C7 amended, witnessed at a concrete input: a fresh Repeat whose `n` port
is bound to the literal `"0"` raises `invalid_count_error`. -/
theorem c7_amended_witness :
    (repeatTickWith (containerTick 1) 0 ctxNZero).1 = Except.error RErr.invalidCount :=
  (c7_amended 1 0 ctxNZero).1.mpr rfl

/-- C9: Inverter involution. For a child whose tick (in the context the
inner Inverter presents to it) returns Success or Fail, two stacked
Inverters around it return exactly the child's own result — the inner
Inverter swaps it once, the outer swaps it back; and an Inverter with no
child returns Fail. -/
theorem c9_inverter_involution :
    (∀ (fuel : Nat) (c : BNode) (ctx : Ctx) (r : BehaviorResult)
        (c2 : BNode) (ctx2 : Ctx),
        containerTick fuel c ⟨ctx.blackboard, [], [c]⟩ = (Except.ok r, c2, ctx2) →
        r ≠ BehaviorResult.Running →
        (containerTick (fuel + 2) (doubleInverter c) ctx).1 = Except.ok r) ∧
    (∀ (ct : TickFun) (bb : Blackboard) (m : BBMap),
        inverterTickWith ct ⟨bb, m, []⟩ =
          (Except.ok BehaviorResult.Fail, ⟨bb, m, []⟩)) := by
  constructor
  · intro fuel c ctx r c2 ctx2 hc hr
    cases r with
    | Running => exact absurd rfl hr
    | Success =>
      simp [containerTick, containerStep, doubleInverter, kindTickWith,
        inverterTickWith, hc]
    | Fail =>
      simp [containerTick, containerStep, doubleInverter, kindTickWith,
        inverterTickWith, hc]
  · intro ct bb m
    rfl

/-- C10: `Context::tick_child` is soft on out-of-range indices — any index
whose unsigned conversion is at least the children count (in particular any
negative index, the children count being below 2^63) returns `none` with the
context untouched and nothing ticked; consequently an `if` node with two
children (condition and then-branch) whose condition returns Fail returns
Fail, and an `if` node with a lone condition child returns Fail when the
condition does not return Fail. -/
theorem c10_out_of_range_soft :
    (∀ (ct : TickFun) (idx : Int) (ctx : Ctx),
        ctx.children.length ≤ sizeTOfInt idx →
        tickChildWith ct idx ctx = (Except.ok none, ctx)) ∧
    (∀ (ct : TickFun) (idx : Int) (ctx : Ctx),
        idx < 0 → -(2 ^ 63) ≤ idx → ctx.children.length < 2 ^ 63 →
        tickChildWith ct idx ctx = (Except.ok none, ctx)) ∧
    (∀ (fuel : Nat) (ctx ctx2 : Ctx),
        ctx.children.length = 2 →
        tick_child fuel 0 ctx = (Except.ok (some BehaviorResult.Fail), ctx2) →
        ifTick fuel ctx = (Except.ok BehaviorResult.Fail, ctx2)) ∧
    (∀ (fuel : Nat) (ctx ctx2 : Ctx) (r0 : Option BehaviorResult),
        ctx.children.length = 1 →
        tick_child fuel 0 ctx = (Except.ok r0, ctx2) →
        r0 ≠ some BehaviorResult.Fail →
        ifTick fuel ctx = (Except.ok BehaviorResult.Fail, ctx2)) := by
  have soft : ∀ (ct : TickFun) (idx : Int) (ctx : Ctx),
      ctx.children.length ≤ sizeTOfInt idx →
      tickChildWith ct idx ctx = (Except.ok none, ctx) := by
    intro ct idx ctx hle
    simp only [tickChildWith]
    rw [dif_neg (by omega)]
  refine ⟨soft, ?_, ?_, ?_⟩
  · intro ct idx ctx hneg hlo hlen
    refine soft ct idx ctx ?_
    have hpow : (2 : Int) ^ 64 = 18446744073709551616 := by norm_num
    have hpow63 : (2 : Int) ^ 63 = 9223372036854775808 := by norm_num
    have hmod : idx % (2 : Int) ^ 64 = idx + 2 ^ 64 := by
      rw [hpow] at *
      omega
    simp only [sizeTOfInt, hmod]
    have hlen2 : (ctx.children.length : Int) < 2 ^ 63 := by exact_mod_cast hlen
    omega
  · intro fuel ctx ctx2 hlen hc
    have hlen2 : ctx2.children.length = 2 := by
      have := tick_child_len fuel 0 ctx
      rw [hc] at this
      rw [this, hlen]
    simp only [tick_child] at hc
    simp only [ifTick, ifTickWith, hc, if_true]
    rw [soft (containerTick fuel) 2 ctx2 (by rw [hlen2]; decide)]
  · intro fuel ctx ctx2 r0 hlen hc hr0
    have hlen2 : ctx2.children.length = 1 := by
      have := tick_child_len fuel 0 ctx
      rw [hc] at this
      rw [this, hlen]
    simp only [tick_child] at hc
    simp only [ifTick, ifTickWith, hc]
    rw [if_neg hr0]
    rw [soft (containerTick fuel) 1 ctx2 (by rw [hlen2]; decide)]

/-- C9, witnessed at a concrete input: a double Inverter around the `false`
leaf returns Fail, the leaf's own result. -/
theorem c9_inverter_involution_witness :
    (containerTick 3 (doubleInverter falseC) ctx0).1 = Except.ok BehaviorResult.Fail :=
  c9_inverter_involution.1 1 falseC ctx0 BehaviorResult.Fail falseC
    ⟨[], [], [falseC]⟩ rfl (by decide)

/-- C10, witnessed at concrete inputs: index 5 against no children and index
-1 against two children both yield `none` untouched; an `if` with a failing
condition and no else child returns Fail; an `if` with a succeeding condition
and no then child returns Fail. -/
theorem c10_out_of_range_soft_witness :
    tickChildWith (containerTick 0) 5 ctx0 = (Except.ok none, ctx0) ∧
    tickChildWith (containerTick 0) (-1) ctxC3 = (Except.ok none, ctxC3) ∧
    ifTick 1 ctxC3 = (Except.ok BehaviorResult.Fail, ctxC3) ∧
    ifTick 1 ctxTrue1 = (Except.ok BehaviorResult.Fail, ctxTrue1) :=
  ⟨c10_out_of_range_soft.1 (containerTick 0) 5 ctx0 (by decide),
   c10_out_of_range_soft.2.1 (containerTick 0) (-1) ctxC3 (by decide) (by decide) (by decide),
   c10_out_of_range_soft.2.2.1 1 ctxC3 ctxC3 (by decide) rfl,
   c10_out_of_range_soft.2.2.2 1 ctxTrue1 ctxTrue1 (some BehaviorResult.Success)
     (by decide) rfl (by decide)⟩

end BT
